import Mathlib

/-!
Shallow embedding of the WebSocket tester frontend core
(`src/websocket_tester_frontend/src/App.js` and the extended variant in
`src/unnamed/part_000`): the session controller (connect / disconnect /
sendMessage and the four transport notification handlers), the log model
(addLog / clearLog and the rendered snapshot), and the saved-URL store
(saveCurrentUrl).

Conventions of the embedding:
* React state updates become explicit state passing on an `AppState` record.
* Calls into the platform transport (`new WebSocket`, `ws.send`, `ws.close`)
  become an explicit `Effect` trace returned next to the new state.
* Whether a platform call throws synchronously (the `catch` branches of the
  source) is an environment choice, passed in as an `Option String` carrying
  the exception message.
* The platform's `JSON.parse` / `JSON.stringify` pair is embedded as an
  executable JSON parser and printer over a `Json` value type; numbers are
  modelled as integers (the payloads of interest are integer-valued) and the
  platform's parse-exception text is abstracted by `jsonParseErrorText`.
* `crypto.randomUUID()` and `new Date().toLocaleTimeString()` are modelled by
  a monotone counter `nextId` stored in the state: each freshly created log
  entry or saved-URL entry consumes the current counter value.
-/

/-- Direction tag of a log entry, mirroring the `DIRECTION` constant of the
source (`sent` / `received` / `system`). -/
inductive Direction where
  | sent
  | received
  | system
deriving DecidableEq, Repr

/-- Connection status, mirroring the string union
`disconnected | connecting | connected` of the source. -/
inductive Status where
  | disconnected
  | connecting
  | connected
deriving DecidableEq, Repr

/-- One log entry: `addLog` stamps a fresh `id` and a creation time onto the
`type`/`text` payload it is given. Both the id and the human-readable time are
opaque fresh values in the source (`crypto.randomUUID()`, `ts()`); here both
are drawn from the state's counter. -/
structure LogEntry where
  id : Nat
  time : Nat
  type : Direction
  text : String
deriving DecidableEq, Repr

/-- A saved connection entry of the extended source file
(`{ id, label, url, secure }`). -/
structure SavedUrl where
  id : Nat
  label : String
  url : String
  secure : Bool
deriving DecidableEq, Repr

/-- Calls made into the platform transport, recorded as a trace. -/
inductive Effect where
  | wsOpen (url : String)
  | wsSend (payload : String)
  | wsClose (code : Nat) (reason : String)
deriving DecidableEq, Repr

/-- The application state: the React `useState` cells of the component plus
the `wsRef` ref (modelled as the boolean `hasWs`: whether `wsRef.current` is
non-null) and the freshness counter `nextId`. -/
structure AppState where
  url : String
  isSecure : Bool
  status : Status
  error : String
  message : String
  isJson : Bool
  log : List LogEntry
  hasWs : Bool
  savedUrls : List SavedUrl
  urlLabel : String
  nextId : Nat
deriving DecidableEq, Repr

/-- The initial state of the component: all text fields empty, secure flag
defaulting to true, status disconnected, empty log, no transport. -/
def initState : AppState :=
  { url := "", isSecure := true, status := Status.disconnected, error := "",
    message := "", isJson := false, log := [], hasWs := false,
    savedUrls := [], urlLabel := "", nextId := 0 }

/-- JavaScript `String.prototype.trim`: drop whitespace from both ends. -/
def jsTrim (s : String) : String :=
  String.mk (((s.data.dropWhile Char.isWhitespace).reverse.dropWhile
    Char.isWhitespace).reverse)

/-- Character-list version of `startsWith`: the first list starts with the
second. -/
def listStarts : List Char → List Char → Bool
  | _, [] => true
  | [], _ :: _ => false
  | c :: cs, p :: ps => c == p && listStarts cs ps

/-- JavaScript `s.startsWith(p)`. -/
def strStarts (s p : String) : Bool :=
  listStarts s.data p.data

/-- JSON values as produced by the platform's `JSON.parse`; numbers are
modelled as integers. -/
inductive Json where
  | null
  | bool (b : Bool)
  | num (n : Int)
  | str (s : String)
  | arr (elems : List Json)
  | obj (fields : List (String × Json))

/-- Skip JSON insignificant whitespace. -/
def skipWs : List Char → List Char
  | c :: cs =>
    if c = ' ' ∨ c = '\t' ∨ c = '\n' ∨ c = '\r' then skipWs cs else c :: cs
  | [] => []

/-- Split off a maximal run of leading decimal digits. -/
def takeDigits : List Char → (List Char × List Char)
  | c :: cs =>
    if c.isDigit then
      let p := takeDigits cs
      (c :: p.1, p.2)
    else ([], c :: cs)
  | [] => ([], [])

/-- Decimal value of a digit run. -/
def digitsToNat (ds : List Char) : Nat :=
  ds.foldl (fun a c => a * 10 + (c.toNat - 48)) 0

/-- Decode one JSON string escape character (the character following a
backslash): the three self-representing escapes and the five named ones. -/
def escChar (e : Char) : Option Char :=
  if e = 'n' then some '\n'
  else if e = 't' then some '\t'
  else if e = 'r' then some '\r'
  else if e = 'b' then some '\x08'
  else if e = 'f' then some '\x0c'
  else if e = '"' ∨ e = '\\' ∨ e = '/' then some e
  else none

/-- Parse the body of a JSON string after the opening quote, up to and
including the closing quote, returning the decoded characters and the rest of
the input. -/
def parseStringBody : List Char → Option (List Char × List Char)
  | [] => none
  | '"' :: rest => some ([], rest)
  | '\\' :: e :: rest => do
    let c ← escChar e
    let p ← parseStringBody rest
    some (c :: p.1, p.2)
  | c :: rest => do
    let p ← parseStringBody rest
    some (c :: p.1, p.2)

mutual

/-- Fuel-indexed recursive-descent parser for one JSON value; returns the
value and the unconsumed input. -/
def parseValue : Nat → List Char → Option (Json × List Char)
  | 0, _ => none
  | f + 1, cs =>
    match skipWs cs with
    | 'n' :: 'u' :: 'l' :: 'l' :: rest => some (Json.null, rest)
    | 't' :: 'r' :: 'u' :: 'e' :: rest => some (Json.bool true, rest)
    | 'f' :: 'a' :: 'l' :: 's' :: 'e' :: rest => some (Json.bool false, rest)
    | '"' :: rest =>
      (parseStringBody rest).map fun p => (Json.str (String.mk p.1), p.2)
    | '-' :: rest =>
      match takeDigits rest with
      | ([], _) => none
      | (ds, r) => some (Json.num (-(digitsToNat ds : Int)), r)
    | '[' :: rest =>
      (match skipWs rest with
       | ']' :: r => some (Json.arr [], r)
       | cs2 => (parseItems f cs2).map fun p => (Json.arr p.1, p.2))
    | '\x7b' :: rest =>
      (match skipWs rest with
       | '\x7d' :: r => some (Json.obj [], r)
       | cs2 => (parseFields f cs2).map fun p => (Json.obj p.1, p.2))
    | c :: rest =>
      if c.isDigit then
        match takeDigits (c :: rest) with
        | (ds, r) => some (Json.num (digitsToNat ds : Int), r)
      else none
    | [] => none

/-- Parse the comma-separated items of a non-empty JSON array, up to and
including the closing bracket. -/
def parseItems : Nat → List Char → Option (List Json × List Char)
  | 0, _ => none
  | f + 1, cs => do
    let p ← parseValue f cs
    match skipWs p.2 with
    | ',' :: r2 => do
      let q ← parseItems f r2
      some (p.1 :: q.1, q.2)
    | ']' :: r2 => some ([p.1], r2)
    | _ => none

/-- Parse the comma-separated fields of a non-empty JSON object, up to and
including the closing brace. -/
def parseFields : Nat → List Char → Option (List (String × Json) × List Char)
  | 0, _ => none
  | f + 1, cs =>
    match skipWs cs with
    | '"' :: rest => do
      let k ← parseStringBody rest
      match skipWs k.2 with
      | ':' :: r2 => do
        let v ← parseValue f r2
        match skipWs v.2 with
        | ',' :: r4 => do
          let q ← parseFields f r4
          some ((String.mk k.1, v.1) :: q.1, q.2)
        | '\x7d' :: r4 => some ([(String.mk k.1, v.1)], r4)
        | _ => none
      | _ => none
    | _ => none

end

/-- Platform `JSON.parse`, embedded: parse one value and require that only
whitespace remains. Returns `none` where the platform throws. -/
def parseJson (s : String) : Option Json :=
  match parseValue (2 * s.length + 2) s.data with
  | some (v, rest) => if skipWs rest = [] then some v else none
  | none => none

/-- Escape one character for inclusion in a JSON string literal. -/
def escapeChar (c : Char) : List Char :=
  if c = '"' then ['\\', '"']
  else if c = '\\' then ['\\', '\\']
  else if c = '\n' then ['\\', 'n']
  else if c = '\t' then ['\\', 't']
  else if c = '\r' then ['\\', 'r']
  else if c = '\x08' then ['\\', 'b']
  else if c = '\x0c' then ['\\', 'f']
  else [c]

/-- Quote and escape a string as a JSON string literal. -/
def escapeJsonString (s : String) : String :=
  "\"" ++ String.mk (s.data.foldr (fun c acc => escapeChar c ++ acc) []) ++ "\""

mutual

/-- Platform `JSON.stringify(v)` (no indent argument): compact output with no
added whitespace. -/
def stringifyCompact : Json → String
  | Json.null => "null"
  | Json.bool true => "true"
  | Json.bool false => "false"
  | Json.num n => toString n
  | Json.str s => escapeJsonString s
  | Json.arr vs => "[" ++ compactItems vs ++ "]"
  | Json.obj fs => "\x7b" ++ compactFields fs ++ "\x7d"

/-- Comma-joined compact array items. -/
def compactItems : List Json → String
  | [] => ""
  | [v] => stringifyCompact v
  | v :: vs => stringifyCompact v ++ "," ++ compactItems vs

/-- Comma-joined compact object fields. -/
def compactFields : List (String × Json) → String
  | [] => ""
  | [(k, v)] => escapeJsonString k ++ ":" ++ stringifyCompact v
  | (k, v) :: fs =>
    escapeJsonString k ++ ":" ++ stringifyCompact v ++ "," ++ compactFields fs

end

/-- A run of `2 * d` spaces: the indentation at nesting depth `d` for a
two-space indent. -/
def indentStr (d : Nat) : String :=
  String.mk (List.replicate (2 * d) ' ')

mutual

/-- Platform `JSON.stringify(v, null, 2)`: pretty output with two-space
indentation, `d` being the current nesting depth. -/
def stringifyPretty : Nat → Json → String
  | _, Json.null => "null"
  | _, Json.bool true => "true"
  | _, Json.bool false => "false"
  | _, Json.num n => toString n
  | _, Json.str s => escapeJsonString s
  | _, Json.arr [] => "[]"
  | d, Json.arr (v :: vs) =>
    "[\n" ++ prettyItems (d + 1) (v :: vs) ++ "\n" ++ indentStr d ++ "]"
  | _, Json.obj [] => "\x7b\x7d"
  | d, Json.obj (f :: fs) =>
    "\x7b\n" ++ prettyFields (d + 1) (f :: fs) ++ "\n" ++ indentStr d ++ "\x7d"

/-- Pretty array items, one per line at depth `d`, comma-newline separated. -/
def prettyItems : Nat → List Json → String
  | _, [] => ""
  | d, [v] => indentStr d ++ stringifyPretty d v
  | d, v :: vs =>
    indentStr d ++ stringifyPretty d v ++ ",\n" ++ prettyItems d vs

/-- Pretty object fields, one per line at depth `d`, comma-newline
separated. -/
def prettyFields : Nat → List (String × Json) → String
  | _, [] => ""
  | d, [(k, v)] => indentStr d ++ escapeJsonString k ++ ": " ++ stringifyPretty d v
  | d, (k, v) :: fs =>
    indentStr d ++ escapeJsonString k ++ ": " ++ stringifyPretty d v ++ ",\n" ++
      prettyFields d fs

end

/-- The best-effort JSON display rule applied to received payloads and to sent
JSON payloads: pretty-print when the text parses as JSON, keep it raw
otherwise (the `try JSON.parse / catch keep as is` idiom of the source). -/
def prettyOrRaw (s : String) : String :=
  match parseJson s with
  | some j => stringifyPretty 0 j
  | none => s

/-- The protocol hint derived from the secure switch
(`isSecure ? 'wss://' : 'ws://'`). -/
def protoHint (isSecure : Bool) : String :=
  if isSecure then "wss://" else "ws://"

/-- Does a string start with `ws://` or `wss://`? (the condition tested by
`normalizeUrl` on the trimmed input). -/
def wsPrefixed (s : String) : Bool :=
  strStarts s "ws://" || strStarts s "wss://"

/-- The `normalizeUrl` helper of the source: empty input maps to the empty
string; otherwise the input is trimmed, kept as is when already
protocol-prefixed, and prefixed with the protocol hint otherwise. -/
def normalizeUrl (hint : String) (u : String) : String :=
  if u = "" then ""
  else
    let trimmed := jsTrim u
    if wsPrefixed trimmed then trimmed else hint ++ trimmed

/-- The `addLog` helper: append one entry with a fresh id and the current
timestamp to the end of the log. -/
def addLog (st : AppState) (d : Direction) (text : String) : AppState :=
  { st with
    log := st.log ++ [{ id := st.nextId, time := st.nextId, type := d, text := text }],
    nextId := st.nextId + 1 }

/-- The rendered view of the log: the full ordered sequence of entries. -/
def snapshot (st : AppState) : List LogEntry :=
  st.log

/-- The `connect` operation. `openThrow` is the environment's choice of
whether `new WebSocket(target)` throws synchronously (carrying the exception
message if so). On the non-throwing path the open call is recorded as a
`wsOpen` effect and `wsRef` becomes non-null. -/
def connect (st : AppState) (openThrow : Option String) : AppState × List Effect :=
  let target := normalizeUrl (protoHint st.isSecure) st.url
  let st1 := { st with error := "" }
  if target = "" then
    (addLog { st1 with error := "Please enter a valid WebSocket URL." }
      Direction.system "No URL provided.", [])
  else
    let st2 := { addLog st1 Direction.system ("Connecting to " ++ target ++ " ...") with
                 status := Status.connecting }
    match openThrow with
    | none => ({ st2 with hasWs := true }, [Effect.wsOpen target])
    | some m =>
      (addLog { st2 with status := Status.disconnected,
                         error := "Failed to connect: " ++ m }
        Direction.system ("Failed to connect: " ++ m), [])

/-- The `disconnect` operation: request a graceful close if a transport
exists (any throw from `close` is swallowed), then unconditionally set
status to disconnected and log one system entry. -/
def disconnect (st : AppState) : AppState × List Effect :=
  let eff := if st.hasWs then [Effect.wsClose 1000 "User disconnect"] else []
  (addLog { st with status := Status.disconnected }
    Direction.system "Disconnected by user", eff)

/-- Abstraction of the platform's `JSON.parse` exception message (the
`e.message` interpolated into the `Invalid JSON:` error of the source). -/
def jsonParseErrorText : String :=
  "Unexpected token in JSON"

/-- The `sendMessage` operation. `sendThrow` is the environment's choice of
whether `ws.send(payload)` throws (carrying the exception message if so);
the send call itself is recorded as a `wsSend` effect whenever it is
reached. -/
def sendMessage (st : AppState) (sendThrow : Option String) :
    AppState × List Effect :=
  let st1 := { st with error := "" }
  if st1.status != Status.connected || !st1.hasWs then
    (addLog { st1 with error := "Not connected to a WebSocket server." }
      Direction.system "Cannot send: not connected", [])
  else if jsTrim st1.message = "" then
    (st1, [])
  else
    match (if st1.isJson then (parseJson st1.message).map stringifyCompact
           else some st1.message) with
    | none =>
      let msg := "Invalid JSON: " ++ jsonParseErrorText
      (addLog { st1 with error := msg } Direction.system msg, [])
    | some payload =>
      match sendThrow with
      | none =>
        let display := if st1.isJson then prettyOrRaw payload else payload
        (addLog st1 Direction.sent display, [Effect.wsSend payload])
      | some m =>
        let msg := "Send failed: " ++ m
        (addLog { st1 with error := msg } Direction.system msg,
         [Effect.wsSend payload])

/-- The `clearLog` operation: replace the log with the empty sequence, then
append one system entry noting the clear. -/
def clearLog (st : AppState) : AppState :=
  addLog { st with log := [] } Direction.system "Log cleared"

/-- The transport `onopen` notification handler registered by `connect`. -/
def onOpen (st : AppState) (target : String) : AppState :=
  addLog { st with status := Status.connected }
    Direction.system ("Connected to " ++ target)

/-- The transport `onmessage` notification handler: display the payload
pretty-printed when it parses as JSON, raw otherwise. -/
def onMessage (st : AppState) (data : String) : AppState :=
  addLog st Direction.received (prettyOrRaw data)

/-- The transport `onerror` notification handler; `msg` models
`evt?.message`, with the JavaScript falsy fallback for a missing or empty
message. -/
def onError (st : AppState) (msg : Option String) : AppState :=
  let m := match msg with
    | some s => if s = "" then "An error occurred" else s
    | none => "An error occurred"
  addLog { st with error := "WebSocket error occurred. Check the console or server." }
    Direction.system ("Error: " ++ m)

/-- The transport `onclose` notification handler; an empty reason string is
replaced by the default text, matching the falsy `evt.reason ||` idiom. -/
def onClose (st : AppState) (code : Nat) (reason : String) : AppState :=
  let r := if reason = "" then "Connection closed" else reason
  addLog { st with status := Status.disconnected }
    Direction.system ("Disconnected (" ++ toString code ++ ") - " ++ r)

/-- The saved-URL entry that `saveCurrentUrl` builds from the current state:
fresh id, label defaulting to the trimmed url when the label input is blank,
the trimmed url, and the secure switch. -/
def savedEntry (st : AppState) : SavedUrl :=
  { id := st.nextId,
    label := if jsTrim st.urlLabel = "" then jsTrim st.url else jsTrim st.urlLabel,
    url := jsTrim st.url,
    secure := st.isSecure }

/-- The exact-duplicate test of `saveCurrentUrl`: some already-saved entry has
the same url, secure flag and label. -/
def dupSaved (st : AppState) : Bool :=
  st.savedUrls.any fun x =>
    x.url == (savedEntry st).url && x.secure == (savedEntry st).secure &&
      x.label == (savedEntry st).label

/-- The `saveCurrentUrl` operation of the extended source: a no-op on a blank
url input; otherwise build the entry, suppress exact duplicates, and reset
the label input. -/
def saveCurrentUrl (st : AppState) : AppState :=
  if jsTrim st.url = "" then st
  else
    let st1 := if dupSaved st then st
               else { st with savedUrls := st.savedUrls ++ [savedEntry st] }
    { st1 with urlLabel := "", nextId := st.nextId + 1 }

/-- The log of `st2` extends the log of `st` with exactly `n` new entries at
the end (so every previously appended entry is preserved unchanged). -/
def logGrowth (st st2 : AppState) (n : Nat) : Prop :=
  ∃ l, st2.log = st.log ++ l ∧ l.length = n

theorem logGrowth_of_append (st st2 : AppState) (l : List LogEntry)
    (h : st2.log = st.log ++ l) : logGrowth st st2 l.length :=
  ⟨l, h, rfl⟩

theorem jsTrim_empty : jsTrim "" = "" := rfl

/-- C1: the claim as frozen is false: an already-prefixed input with trailing
whitespace is not used verbatim — `normalizeUrl` returns the trimmed input
`"ws://x"` for the input `"ws://x "`, which differs from the input. -/
theorem c1_counterexample :
    normalizeUrl (protoHint true) "ws://x " = "ws://x" ∧
      "ws://x" ≠ "ws://x " := by
  constructor
  · rfl
  · decide

/-- C1 (amended): `connect`'s normalization first trims the input; when the
trimmed input already starts with `ws://` or `wss://` the trimmed input is
returned unchanged, regardless of the secure flag; otherwise (for non-empty
raw input) the protocol matching the secure flag is prepended to the trimmed
input. (Empty raw input maps to the empty string.) -/
theorem c1_normalize_amended (sec : Bool) (u : String) :
    (wsPrefixed (jsTrim u) = true → normalizeUrl (protoHint sec) u = jsTrim u) ∧
    (u ≠ "" → wsPrefixed (jsTrim u) = false →
      normalizeUrl (protoHint sec) u = protoHint sec ++ jsTrim u) := by
  constructor
  · intro h
    by_cases hu : u = ""
    · exact absurd h (by subst hu; decide)
    · simp [normalizeUrl, if_neg hu, h]
  · intro hu h
    simp [normalizeUrl, if_neg hu, h]

/-- Closed instance of the amended C1 theorem: both prefixed and bare inputs,
with the hypotheses discharged at concrete strings. -/
theorem c1_normalize_amended_witness :
    normalizeUrl (protoHint false) " ws://a " = jsTrim " ws://a " ∧
      normalizeUrl (protoHint true) "host" = protoHint true ++ jsTrim "host" :=
  ⟨(c1_normalize_amended false " ws://a ").1 (by decide),
   (c1_normalize_amended true "host").2 (by decide) (by decide)⟩

/-- C5: whenever the status is not connected, `sendMessage` performs no
transport write at all: its effect trace is empty, whatever the payload and
whatever the environment would do with a send call. -/
theorem c5_no_send_when_not_connected (st : AppState) (sendThrow : Option String)
    (h : st.status ≠ Status.connected) :
    (sendMessage st sendThrow).2 = [] := by
  have hb : (st.status != Status.connected) = true := by
    simp [bne_iff_ne, h]
  simp [sendMessage, hb]

/-- Closed instance of C5 at the initial (disconnected) state. -/
theorem c5_witness : (sendMessage initState none).2 = [] :=
  c5_no_send_when_not_connected initState none (by decide)

/-- C6: `connect` on an empty url input leaves the status at disconnected,
opens no transport (empty effect trace, `wsRef` unchanged), sets a non-empty
error message, and appends exactly one system log entry. -/
theorem c6_connect_empty_url (st : AppState) (openThrow : Option String)
    (hu : st.url = "") (hd : st.status = Status.disconnected) :
    (connect st openThrow).1.status = Status.disconnected ∧
    (connect st openThrow).1.error = "Please enter a valid WebSocket URL." ∧
    (connect st openThrow).1.error ≠ "" ∧
    (connect st openThrow).2 = [] ∧
    (connect st openThrow).1.hasWs = st.hasWs ∧
    (connect st openThrow).1.log = st.log ++
      [{ id := st.nextId, time := st.nextId, type := Direction.system,
         text := "No URL provided." }] := by
  have ht : normalizeUrl (protoHint st.isSecure) st.url = "" := by
    rw [hu]; rfl
  refine ⟨?_, ?_, ?_, ?_, ?_, ?_⟩ <;>
    simp [connect, ht, addLog, hd]

/-- Closed instance of C6 at the initial state. -/
theorem c6_witness :
    (connect initState none).1.status = Status.disconnected ∧
      (connect initState none).2 = [] :=
  ⟨(c6_connect_empty_url initState none rfl rfl).1,
   (c6_connect_empty_url initState none rfl rfl).2.2.2.1⟩

/-- C8: from any log contents, `clearLog` followed immediately by `snapshot`
yields a sequence of length exactly one, whose single element is the system
entry noting that the log was cleared. -/
theorem c8_clear_then_snapshot (st : AppState) :
    snapshot (clearLog st) =
      [{ id := st.nextId, time := st.nextId, type := Direction.system,
         text := "Log cleared" }] ∧
    (snapshot (clearLog st)).length = 1 :=
  ⟨rfl, rfl⟩

/-- Fold a batch of `(direction, text)` payloads through `addLog`, in order:
the "appending N entries" of the round-trip property. -/
def appendAll (st : AppState) (es : List (Direction × String)) : AppState :=
  es.foldl (fun s e => addLog s e.1 e.2) st

/-- The sequence of log entries created when the payloads `es` are appended
starting from counter value `n`. -/
def mkEntries (n : Nat) : List (Direction × String) → List LogEntry
  | [] => []
  | e :: es =>
    { id := n, time := n, type := e.1, text := e.2 } :: mkEntries (n + 1) es

theorem snapshot_appendAll (es : List (Direction × String)) :
    ∀ st : AppState,
      snapshot (appendAll st es) = snapshot st ++ mkEntries st.nextId es := by
  induction es with
  | nil => intro st; simp [appendAll, mkEntries, snapshot]
  | cons e es ih =>
    intro st
    have h1 : appendAll st (e :: es) = appendAll (addLog st e.1 e.2) es := rfl
    rw [h1, ih]
    simp [snapshot, addLog, mkEntries]

theorem mkEntries_payloads (es : List (Direction × String)) :
    ∀ n, (mkEntries n es).map (fun e => (e.type, e.text)) = es := by
  induction es with
  | nil => intro n; rfl
  | cons e es ih => intro n; simp [mkEntries, ih]

/-- C7: appending any batch of N entries and then taking a snapshot returns
the previous snapshot unchanged (no past entry mutated) followed by exactly
the N new entries, carrying the appended directions and texts in the exact
order they were appended. -/
theorem c7_append_roundtrip (st : AppState) (es : List (Direction × String)) :
    snapshot (appendAll st es) = snapshot st ++ mkEntries st.nextId es ∧
    (mkEntries st.nextId es).map (fun e => (e.type, e.text)) = es :=
  ⟨snapshot_appendAll es st, mkEntries_payloads es st.nextId⟩

/-- C9: with a non-blank url input, saving the current url is idempotent
under an exact `(url, secure, label)` duplicate — the saved collection is
returned unchanged — and otherwise appends exactly one new entry whose fresh
id differs from every already-saved id. -/
theorem c9_save_current_url (st : AppState) (hu : jsTrim st.url ≠ "")
    (hid : ∀ x ∈ st.savedUrls, x.id < st.nextId) :
    (dupSaved st = true → (saveCurrentUrl st).savedUrls = st.savedUrls) ∧
    (dupSaved st = false →
      (saveCurrentUrl st).savedUrls = st.savedUrls ++ [savedEntry st] ∧
      ∀ x ∈ st.savedUrls, x.id ≠ (savedEntry st).id) := by
  constructor
  · intro hd
    simp [saveCurrentUrl, if_neg hu, hd]
  · intro hd
    refine ⟨by simp [saveCurrentUrl, if_neg hu, hd], ?_⟩
    intro x hx
    have hlt := hid x hx
    simp only [savedEntry]
    omega

/-- Closed instance of C9: saving a fresh url into an empty collection
appends exactly that entry. -/
theorem c9_witness :
    (saveCurrentUrl { initState with url := " a " }).savedUrls =
      { initState with url := " a " }.savedUrls ++
        [savedEntry { initState with url := " a " }] :=
  ((c9_save_current_url { initState with url := " a " } (by decide)
      (by intro x hx; simp [initState] at hx)).2 rfl).1

theorem protoHint_ne_empty (b : Bool) : protoHint b ≠ "" := by
  cases b <;> decide

/-- C10: a non-empty all-whitespace url input normalizes to the bare protocol
hint, which is non-empty, so `connect` does not take the empty-URL error
path: it sets status to connecting, opens a transport to the bare protocol
string, and appends exactly one log entry. -/
theorem c10_whitespace_url (st : AppState) (hne : st.url ≠ "")
    (hws : jsTrim st.url = "") :
    normalizeUrl (protoHint st.isSecure) st.url = protoHint st.isSecure ∧
    protoHint st.isSecure ≠ "" ∧
    (connect st none).1.status = Status.connecting ∧
    (connect st none).1.hasWs = true ∧
    (connect st none).2 = [Effect.wsOpen (protoHint st.isSecure)] ∧
    logGrowth st (connect st none).1 1 := by
  have h1 : normalizeUrl (protoHint st.isSecure) st.url = protoHint st.isSecure := by
    cases hsec : st.isSecure <;> simp only [normalizeUrl, if_neg hne, hws] <;> decide
  have hc : connect st none =
      ({ addLog { st with error := "" } Direction.system
           ("Connecting to " ++ protoHint st.isSecure ++ " ...") with
         status := Status.connecting, hasWs := true },
       [Effect.wsOpen (protoHint st.isSecure)]) := by
    simp only [connect, h1, if_neg (protoHint_ne_empty st.isSecure)]
  refine ⟨h1, protoHint_ne_empty st.isSecure, ?_, ?_, ?_, ?_⟩
  · rw [hc]
  · rw [hc]
  · rw [hc]
  · exact ⟨[{ id := st.nextId, time := st.nextId, type := Direction.system,
              text := "Connecting to " ++ protoHint st.isSecure ++ " ..." }],
      by rw [hc]; rfl, rfl⟩

/-- Closed instance of C10 at a single-space url input. -/
theorem c10_witness :
    (connect { initState with url := " " } none).1.status = Status.connecting ∧
      (connect { initState with url := " " } none).2 =
        [Effect.wsOpen (protoHint { initState with url := " " }.isSecure)] :=
  ⟨(c10_whitespace_url { initState with url := " " } (by decide) (by decide)).2.2.1,
   (c10_whitespace_url { initState with url := " " } (by decide) (by decide)).2.2.2.2.1⟩

/-- A connected state with JSON mode enabled and the given compose-box
message: the precondition shared by the send-path claims. -/
def connectedJsonState (m : String) : AppState :=
  { initState with
    status := Status.connected
    hasWs := true
    isJson := true
    message := m }

/-- C3: from any connected state with JSON mode on and the payload
`{"a":1}`, `sendMessage` passes exactly the canonical compact re-serialized
string to the transport's send operation and appends exactly one Sent entry
whose text is the two-space pretty-printed form of the payload. -/
theorem c3_send_json_payload (st : AppState)
    (hs : st.status = Status.connected) (hw : st.hasWs = true)
    (hm : st.message = "\x7b\"a\":1\x7d") (hj : st.isJson = true) :
    (sendMessage st none).2 = [Effect.wsSend "\x7b\"a\":1\x7d"] ∧
    (sendMessage st none).1.log = st.log ++
      [{ id := st.nextId, time := st.nextId, type := Direction.sent,
         text := "\x7b\n  \"a\": 1\n\x7d" }] := by
  obtain ⟨url, sec, status, err, msg, ij, log, hws, su, ul, n⟩ := st
  dsimp only at hs hw hm hj
  subst hs hw hm hj
  exact ⟨rfl, rfl⟩

/-- Closed instance of C3 at a concrete connected state. -/
theorem c3_witness :
    (sendMessage (connectedJsonState "\x7b\"a\":1\x7d") none).2 =
      [Effect.wsSend "\x7b\"a\":1\x7d"] :=
  (c3_send_json_payload (connectedJsonState "\x7b\"a\":1\x7d")
    rfl rfl rfl rfl).1

/-- C4: the claim as frozen is false: the empty payload does not parse as
JSON, yet `sendMessage` with JSON mode on in a connected state takes the
blank-payload early return, leaving the error empty rather than setting a
non-empty parse-failure error. -/
theorem c4_counterexample :
    parseJson "" = none ∧
    (sendMessage (connectedJsonState "") none).1.error = "" ∧
    (sendMessage (connectedJsonState "") none).1.log =
      (connectedJsonState "").log :=
  ⟨rfl, rfl, rfl⟩

/-- C4 (amended): for every payload whose trimmed form is non-empty and that
does not parse as JSON, `sendMessage` in a connected state with JSON mode on
sets the non-empty parse-failure error, performs no transport write, and
appends one System entry and no Sent entry. -/
theorem c4_send_invalid_json (st : AppState) (sendThrow : Option String)
    (hs : st.status = Status.connected) (hw : st.hasWs = true)
    (hj : st.isJson = true) (hne : jsTrim st.message ≠ "")
    (hp : parseJson st.message = none) :
    (sendMessage st sendThrow).1.error = "Invalid JSON: " ++ jsonParseErrorText ∧
    (sendMessage st sendThrow).1.error ≠ "" ∧
    (sendMessage st sendThrow).2 = [] ∧
    (sendMessage st sendThrow).1.log = st.log ++
      [{ id := st.nextId, time := st.nextId, type := Direction.system,
         text := "Invalid JSON: " ++ jsonParseErrorText }] := by
  obtain ⟨url, sec, status, err, msg, ij, log, hws, su, ul, n⟩ := st
  dsimp only at hs hw hj hne hp
  subst hs hw hj
  refine ⟨?_, ?_, ?_, ?_⟩ <;>
    simp [sendMessage, if_neg hne, hp, addLog, jsonParseErrorText]

/-- Closed instance of the amended C4 theorem at the payload from the spec's
example, with every hypothesis discharged concretely. -/
theorem c4_witness :
    (sendMessage (connectedJsonState "\x7binvalid") none).1.error ≠ "" ∧
    (sendMessage (connectedJsonState "\x7binvalid") none).2 = [] :=
  ⟨(c4_send_invalid_json (connectedJsonState "\x7binvalid") none rfl rfl rfl
      (by decide) rfl).2.1,
   (c4_send_invalid_json (connectedJsonState "\x7binvalid") none rfl rfl rfl
      (by decide) rfl).2.2.1⟩

/-- C2: the claim as frozen is false: a `connect` invocation whose transport
constructor throws synchronously both encounters an error (the error field
ends non-empty) and appends two log entries — the connecting announcement and
the failure entry — not exactly one. -/
theorem c2_counterexample :
    (connect { initState with url := "h" } (some "boom")).1.error ≠ "" ∧
    (connect { initState with url := "h" } (some "boom")).1.log.length = 2 ∧
    (connect { initState with url := "h" } (some "boom")).1.log.length ≠
      ({ initState with url := "h" } : AppState).log.length + 1 := by
  refine ⟨by decide, rfl, by decide⟩

/-- C2 (amended): disconnect and the four transport notification handlers
each append exactly one log entry per invocation; `sendMessage` appends
exactly one except on the blank-payload early return (which appends none and
neither changes status nor encounters an error); `connect` appends exactly
one on the empty-URL path and on the successful-open path, but exactly two
when opening the transport throws synchronously. In every case the previous
log is preserved as a prefix. -/
theorem c2_log_discipline_amended (st : AppState)
    (openThrow sendThrow : Option String) (target data : String)
    (em : Option String) (code : Nat) (reason : String) :
    logGrowth st (disconnect st).1 1 ∧
    logGrowth st (onOpen st target) 1 ∧
    logGrowth st (onMessage st data) 1 ∧
    logGrowth st (onError st em) 1 ∧
    logGrowth st (onClose st code reason) 1 ∧
    logGrowth st (sendMessage st sendThrow).1
      (if (st.status != Status.connected || !st.hasWs) = true then 1
       else if jsTrim st.message = "" then 0 else 1) ∧
    logGrowth st (connect st openThrow).1
      (if normalizeUrl (protoHint st.isSecure) st.url = "" then 1
       else match openThrow with | none => 1 | some _ => 2) := by
  refine ⟨⟨_, rfl, rfl⟩, ⟨_, rfl, rfl⟩, ⟨_, rfl, rfl⟩, ⟨_, rfl, rfl⟩,
    ⟨_, rfl, rfl⟩, ?_, ?_⟩
  · by_cases h1 : (st.status != Status.connected || !st.hasWs) = true
    · rw [if_pos h1]
      have hlog : (sendMessage st sendThrow).1.log = st.log ++
          [{ id := st.nextId, time := st.nextId, type := Direction.system,
             text := "Cannot send: not connected" }] := by
        simp [sendMessage, h1, addLog]
      exact ⟨_, hlog, rfl⟩
    · rw [if_neg h1]
      by_cases h2 : jsTrim st.message = ""
      · rw [if_pos h2]
        have hlog : (sendMessage st sendThrow).1.log = st.log := by
          simp [sendMessage, h1, h2]
        exact ⟨[], by simp [hlog], rfl⟩
      · rw [if_neg h2]
        rcases hpp : (if st.isJson then (parseJson st.message).map stringifyCompact
                      else some st.message) with _ | payload
        · have hlog : (sendMessage st sendThrow).1.log = st.log ++
              [{ id := st.nextId, time := st.nextId, type := Direction.system,
                 text := "Invalid JSON: " ++ jsonParseErrorText }] := by
            simp [sendMessage, h1, h2, hpp, addLog]
          exact ⟨_, hlog, rfl⟩
        · cases sendThrow with
          | none =>
            have hlog : (sendMessage st none).1.log = st.log ++
                [{ id := st.nextId, time := st.nextId, type := Direction.sent,
                   text := if st.isJson then prettyOrRaw payload else payload }] := by
              simp [sendMessage, h1, h2, hpp, addLog]
            exact ⟨_, hlog, rfl⟩
          | some m =>
            have hlog : (sendMessage st (some m)).1.log = st.log ++
                [{ id := st.nextId, time := st.nextId, type := Direction.system,
                   text := "Send failed: " ++ m }] := by
              simp [sendMessage, h1, h2, hpp, addLog]
            exact ⟨_, hlog, rfl⟩
  · by_cases hn : normalizeUrl (protoHint st.isSecure) st.url = ""
    · rw [if_pos hn]
      have hlog : (connect st openThrow).1.log = st.log ++
          [{ id := st.nextId, time := st.nextId, type := Direction.system,
             text := "No URL provided." }] := by
        simp [connect, hn, addLog]
      exact ⟨_, hlog, rfl⟩
    · rw [if_neg hn]
      cases openThrow with
      | none =>
        have hlog : (connect st none).1.log = st.log ++
            [{ id := st.nextId, time := st.nextId, type := Direction.system,
               text := "Connecting to " ++
                 normalizeUrl (protoHint st.isSecure) st.url ++ " ..." }] := by
          simp [connect, hn, addLog]
        exact ⟨_, hlog, rfl⟩
      | some m =>
        have hlog : (connect st (some m)).1.log = st.log ++
            [{ id := st.nextId, time := st.nextId, type := Direction.system,
               text := "Connecting to " ++
                 normalizeUrl (protoHint st.isSecure) st.url ++ " ..." },
             { id := st.nextId + 1, time := st.nextId + 1,
               type := Direction.system,
               text := "Failed to connect: " ++ m }] := by
          simp [connect, hn, addLog]
        exact ⟨_, hlog, rfl⟩
